import Mathlib

/-!
Verification of the `async-context` library (`src/context.ts`).

The library exposes four operations built on one external capability, the
Propagation Carrier (`AsyncLocalStorage` from `node:async_hooks`):

* `createContext(initialValue)` allocates a fresh carrier slot, seeds it with
  the initial value (`storage.enterWith(initialValue)`), and returns a handle
  whose `use` reads `storage.getStore() ?? initialValue` and whose `run`
  delegates to `storage.run(value, fn)`.
* `use(handle)` delegates to `handle.use()`.
* `runWithContext(handle, value)` returns `fn => handle.run(value, fn)`.

The carrier itself is not part of the repository; its semantics are modelled
from the spec's boundary description (seed / bindForExtent / currentBinding):
`bindForExtent` runs an operation with the slot bound to the given value and
restores the previous slot content once the operation settles by any means.

TypeScript values of the generic `Context` type may be nullish (`null` or
`undefined` are members of types such as `string | null`), and the `??`
operator in `use` treats a nullish store entry like an absent one, so the
value universe is modelled as `TSVal α`: either a proper value or nullish.
-/

namespace AsyncContext

/-- A TypeScript value of the generic `Context` type: either a proper value
of the underlying type `α` or a nullish value (`null` / `undefined`). -/
inductive TSVal (α : Type) where
  | nullish
  | value (a : α)
deriving DecidableEq, Repr

/-- Translation of the `ContextHandle` closure produced by `createContext`:
it captures the identity of its own carrier slot (`new AsyncLocalStorage()`)
and the `initialValue` argument. -/
structure ContextHandle (α : Type) where
  id : Nat
  initialValue : TSVal α

/-- The in-process carrier state: a counter supplying fresh slot identities
and the store mapping each slot to its current binding.  `none` models a slot
whose `getStore()` returns `undefined` (never entered in this causal chain);
`some v` models a slot whose store is the (possibly nullish) value `v`. -/
structure CtxState (α : Type) where
  nextId : Nat
  store : Nat → Option (TSVal α)

/-- Modelled from the spec: writing one carrier slot, leaving all other
slots untouched.  Used both to establish a binding for a new extent and to
restore the previous binding when the extent settles. -/
def setSlot (hid : Nat) (v : Option (TSVal α)) (s : CtxState α) : CtxState α :=
  { s with store := fun i => if i = hid then v else s.store i }

/-- Modelled from the spec: the carrier's `bindForExtent` entry step —
the new extent sees the slot bound to `v`. -/
def bindForExtent (hid : Nat) (v : TSVal α) (s : CtxState α) : CtxState α :=
  setSlot hid (some v) s

/-- Translation of the `??` (nullish-coalescing) expression in `use`:
`value ?? initialValue` yields `initialValue` when `value` is `undefined`
(absent store) or a nullish store content, and the stored value otherwise. -/
def nullishCoalesce (v : Option (TSVal α)) (d : TSVal α) : TSVal α :=
  match v with
  | some (TSVal.value a) => TSVal.value a
  | _ => d

/-- Translation of the handle's `use` method:
`const value = storage.getStore(); return value ?? initialValue`. -/
def ContextHandle.use (h : ContextHandle α) (s : CtxState α) : TSVal α :=
  nullishCoalesce (s.store h.id) h.initialValue

/-- The semantic domain of a TypeScript async operation: it transforms the
carrier state and either resolves (`Except.ok`) or rejects (`Except.error`). -/
def CtxM (α ε β : Type) : Type := CtxState α → Except ε β × CtxState α

/-- Translation of the handle's `run` method, `storage.run(value, fn)`,
with the carrier's `bindForExtent` semantics spelled out (modelled from the
spec): save the slot content of the enclosing extent, run `fn` with the slot
bound to `value`, and once `fn` settles — resolve or reject — restore the
saved content and pass the outcome through unchanged. -/
def ContextHandle.run (h : ContextHandle α) (v : TSVal α) (fn : CtxM α ε β) :
    CtxM α ε β :=
  fun s =>
    let saved := s.store h.id
    let p := fn (bindForExtent h.id v s)
    (p.1, setSlot h.id saved p.2)

/-- Translation of `createContext`: allocate a fresh carrier slot
(`new AsyncLocalStorage()`), seed it with the initial value
(`storage.enterWith(initialValue)`), and return the handle closure. -/
def createContext (init : TSVal α) (s : CtxState α) :
    ContextHandle α × CtxState α :=
  (⟨s.nextId, init⟩,
   { nextId := s.nextId + 1, store := (setSlot s.nextId (some init) s).store })

/-- Translation of the top-level `use` function: `handle.use()`. -/
def use (handle : ContextHandle α) (s : CtxState α) : TSVal α :=
  handle.use s

/-- Translation of `runWithContext`: returns the function
`fn => handle.run(value, fn)`. -/
def runWithContext (handle : ContextHandle α) (v : TSVal α) :
    CtxM α ε β → CtxM α ε β :=
  fun fn => handle.run v fn

/-- The operation `async () => use(handle)` appearing in the spec's testable
properties, embedded at the effectful signature: it resolves with the current
reading of the handle and leaves the carrier state unchanged. -/
def useOp (h : ContextHandle α) : CtxM α ε (TSVal α) :=
  fun s => (Except.ok (use h s), s)

/-- `createContext` embedded at the effectful signature of a TypeScript
call site: its body (`new AsyncLocalStorage()`, `enterWith`, building the
closure record) contains no throwing construct, so it always resolves. -/
def createContextOp (init : TSVal α) : CtxM α ε (ContextHandle α) :=
  fun s => (Except.ok (createContext init s).1, (createContext init s).2)

/-- The nested program of the spec's nesting property: inside the outer
extent read the handle, run an inner extent bound to `b` that reads it
again, then read once more after the inner run has returned. -/
def nestedReadOp (h : ContextHandle α) (b : TSVal α) :
    CtxM α ε (TSVal α × TSVal α × TSVal α) :=
  fun s =>
    let r1 := use h s
    let p := (h.run b (useOp h)) s
    match p.1 with
    | Except.ok r2 => (Except.ok (r1, r2, use h p.2), p.2)
    | Except.error e => (Except.error e, p.2)

/- ### Concurrent fan-out model

`AsyncLocalStorage` (the Propagation Carrier) is external to the repository;
its concurrency guarantee is modelled from the spec's boundary description:
`bindForExtent` propagates the binding captured at spawn to everything the
extent spawns, across suspension points, and other extents interleaving on
the same execution resource never observe it. -/

/-- Modelled from the spec: one step of a concurrently running child
operation — either a suspension point (timer, deferred continuation), after
which the scheduler may interleave other tasks, or a nested `run` that
rebinds the handle for the remainder of this child's own extent. -/
inductive ChildStep (α : Type) where
  | delay
  | rebind (v : TSVal α)
deriving DecidableEq

/-- Modelled from the spec: a concurrently running child operation.  The
carrier runs each spawned operation against the binding snapshot captured
when its extent was created, so each task carries its own `env`; `prog`
lists its remaining steps and `result` holds the reading it resolves with
after its last step. -/
structure Task (α : Type) where
  env : Nat → Option (TSVal α)
  prog : List (ChildStep α)
  result : Option (TSVal α)

/-- One scheduler turn given to one task: a resolved task is left alone; a
task with no steps left performs its final read — the source `use` against
its own snapshot — and resolves; a `delay` is consumed; a `rebind` updates
only this task's own snapshot. -/
def Task.turn (h : ContextHandle α) (t : Task α) : Task α :=
  match t.result with
  | some _ => t
  | none =>
    match t.prog with
    | [] => { t with result := some (ContextHandle.use h ⟨0, t.env⟩) }
    | ChildStep.delay :: rest => { t with prog := rest }
    | ChildStep.rebind v :: rest =>
        { t with env := fun i => if i = h.id then some v else t.env i,
                 prog := rest }

/-- Give one scheduler turn to the task at position `i` of the fan-out
(no effect when `i` is out of range). -/
def schedTurn (h : ContextHandle α) (tasks : List (Task α)) (i : Nat) :
    List (Task α) :=
  match tasks[i]? with
  | none => tasks
  | some t => tasks.set i (Task.turn h t)

/-- Run an arbitrary interleaving: the schedule lists, in order, which task
receives each turn; completion order and added delays are entirely up to the
schedule. -/
def runSched (h : ContextHandle α) (tasks : List (Task α)) :
    List Nat → List (Task α)
  | [] => tasks
  | i :: rest => runSched h (schedTurn h tasks i) rest

/-- Modelled from the spec: `handle.run(v, op)` launched concurrently from
the extent whose carrier state is `s` spawns a child whose snapshot is the
parent's store with the handle's slot bound to `v`. -/
def spawnChild (h : ContextHandle α) (s : CtxState α) (v : TSVal α)
    (prog : List (ChildStep α)) : Task α :=
  { env := (bindForExtent h.id v s).store, prog := prog, result := none }

/-- A concurrent fan-out: one child per entry of `specs`, each with its own
bound value and program, all spawned from the same parent extent. -/
def fanOut (h : ContextHandle α) (s : CtxState α)
    (specs : List (TSVal α × List (ChildStep α))) : List (Task α) :=
  specs.map (fun p => spawnChild h s p.1 p.2)

/-- A child program that never rebinds the handle. -/
def noRebind (prog : List (ChildStep α)) : Prop :=
  ∀ st ∈ prog, st = ChildStep.delay

/-- The invariant each scheduler turn preserves for a non-rebinding child
spawned with value `a`: its snapshot keeps the handle bound to `a`, its
remaining program never rebinds, and its result — once present — is `a`. -/
def TaskInv (h : ContextHandle α) (a : α) (t : Task α) : Prop :=
  t.env h.id = some (TSVal.value a) ∧ noRebind t.prog ∧
    (t.result = none ∨ t.result = some (TSVal.value a))

/-- A concrete three-child fan-out: child 0 bound to `10` with one
suspension point, child 1 bound to `20` and rebinding to `99` mid-flight,
child 2 bound to `30` resolving immediately. -/
def demoSpecs : List (TSVal Nat × List (ChildStep Nat)) :=
  [(TSVal.value 10, [ChildStep.delay]),
   (TSVal.value 20, [ChildStep.rebind (TSVal.value 99)]),
   (TSVal.value 30, [])]

/-- The parent extent state for the concrete fan-out. -/
def demoState : CtxState Nat :=
  ⟨1, fun i => if i = 0 then some (TSVal.value 0) else none⟩

/-- The handle of the concrete fan-out, default `0` on slot `0`. -/
def demoHandle : ContextHandle Nat := ⟨0, TSVal.value 0⟩

/-- An interleaved schedule completing all three concrete children. -/
def demoSched : List Nat := [1, 0, 2, 1, 0, 1, 2]

/- ### Helper lemmas -/

theorem setSlot_store_self (hid : Nat) (v : Option (TSVal α)) (s : CtxState α) :
    (setSlot hid v s).store hid = v := by
  simp [setSlot]

theorem setSlot_store_other (hid j : Nat) (v : Option (TSVal α))
    (s : CtxState α) (hj : j ≠ hid) : (setSlot hid v s).store j = s.store j := by
  simp [setSlot, hj]

theorem run_post_store (h : ContextHandle α) (v : TSVal α) (fn : CtxM α ε β)
    (s : CtxState α) : ((h.run v fn) s).2.store h.id = s.store h.id := by
  simp [ContextHandle.run, setSlot]

theorem run_post_use (h : ContextHandle α) (v : TSVal α) (fn : CtxM α ε β)
    (s : CtxState α) : ContextHandle.use h ((h.run v fn) s).2 = ContextHandle.use h s := by
  simp [ContextHandle.use, run_post_store]

theorem run_result (h : ContextHandle α) (v : TSVal α) (fn : CtxM α ε β)
    (s : CtxState α) : ((h.run v fn) s).1 = (fn (bindForExtent h.id v s)).1 := by
  simp [ContextHandle.run]

theorem use_bindForExtent_value (h : ContextHandle α) (a : α) (s : CtxState α) :
    ContextHandle.use h (bindForExtent h.id (TSVal.value a) s) = TSVal.value a := by
  simp [ContextHandle.use, bindForExtent, setSlot, nullishCoalesce]

theorem use_bindForExtent_nullish (h : ContextHandle α) (s : CtxState α) :
    ContextHandle.use h (bindForExtent h.id TSVal.nullish s) = h.initialValue := by
  simp [ContextHandle.use, bindForExtent, setSlot, nullishCoalesce]

/- ### Claims -/

/-- C1 (counterexample): with a handle created with default `7`, binding the
nullish value via `run` and reading inside does not yield the bound nullish
value — `use` coalesces it to the default, so `run(V, () => read(handle))`
does not yield `V` for every `V`. -/
theorem run_read_yields_bound_cex :
    ((ContextHandle.run (createContext (TSVal.value 7) ⟨0, fun _ => none⟩).1
        TSVal.nullish
        (useOp (createContext (TSVal.value 7) ⟨0, fun _ => none⟩).1))
      (createContext (TSVal.value 7) ⟨0, fun _ => none⟩).2).1
      ≠ (Except.ok TSVal.nullish : Except Unit (TSVal Nat)) := by
  intro hcontra
  have h7 : ((ContextHandle.run (createContext (TSVal.value 7) ⟨0, fun _ => none⟩).1
        TSVal.nullish
        (useOp (createContext (TSVal.value 7) ⟨0, fun _ => none⟩).1))
      (createContext (TSVal.value 7) ⟨0, fun _ => none⟩).2).1
      = (Except.ok (TSVal.value 7) : Except Unit (TSVal Nat)) := rfl
  rw [h7] at hcontra
  exact absurd (Except.ok.inj hcontra) (by decide)

/-- C1 (amended): for every handle, every state and every non-nullish value
`V`, `run(V, () => read(handle))` resolves with exactly `V`: the read inside
the extent created by `run` returns the bound value. -/
theorem run_read_yields_bound (h : ContextHandle α) (s : CtxState α) (a : α) :
    ((h.run (ε := ε) (TSVal.value a) (useOp h)) s).1
      = Except.ok (TSVal.value a) := by
  rw [run_result]
  simp [useOp, use, use_bindForExtent_value]

/-- C2: after `run(v, fn)` completes — for every operation `fn`, hence on
the resolve path and the reject path alike — the handle's carrier slot holds
exactly what it held before the `run` call, and a read in the calling extent
returns exactly what it returned before. -/
theorem run_restores_binding (h : ContextHandle α) (v : TSVal α)
    (fn : CtxM α ε β) (s : CtxState α) :
    ((h.run v fn) s).2.store h.id = s.store h.id ∧
      ContextHandle.use h ((h.run v fn) s).2 = ContextHandle.use h s :=
  ⟨run_post_store h v fn s, run_post_use h v fn s⟩

/-- C3: if the operation given to `run` rejects with error `e`, then `run`
rejects with exactly that `e` — unwrapped and unaltered — and the binding has
been reverted, so a subsequent read returns the pre-`run` value. -/
theorem run_propagates_failure (h : ContextHandle α) (v : TSVal α)
    (fn : CtxM α ε β) (s : CtxState α) (e : ε)
    (hfail : (fn (bindForExtent h.id v s)).1 = Except.error e) :
    ((h.run v fn) s).1 = Except.error e ∧
      ContextHandle.use h ((h.run v fn) s).2 = ContextHandle.use h s :=
  ⟨by rw [run_result]; exact hfail, run_post_use h v fn s⟩

/-- C3 (witness): a concrete rejecting operation under a concrete handle and
state: `run` rejects with the same error `42` and the subsequent read equals
the pre-`run` read. -/
theorem run_propagates_failure_witness :
    ((ContextHandle.run (⟨0, TSVal.value 5⟩ : ContextHandle Nat) TSVal.nullish
        (fun t => ((Except.error 42 : Except Nat Unit), t)))
      ⟨1, fun i => if i = 0 then some (TSVal.value 5) else none⟩).1
      = Except.error 42 ∧
      ContextHandle.use (⟨0, TSVal.value 5⟩ : ContextHandle Nat)
        ((ContextHandle.run (⟨0, TSVal.value 5⟩ : ContextHandle Nat) TSVal.nullish
            (fun t => ((Except.error 42 : Except Nat Unit), t)))
          ⟨1, fun i => if i = 0 then some (TSVal.value 5) else none⟩).2
      = ContextHandle.use (⟨0, TSVal.value 5⟩ : ContextHandle Nat)
          ⟨1, fun i => if i = 0 then some (TSVal.value 5) else none⟩ :=
  run_propagates_failure _ _ _ _ 42 rfl

/-- C4 (counterexample): nesting with the outer bound value nullish: the
outer reads yield the default `0`, not the bound nullish value, so strict
nesting as stated — for all values `A ≠ B` — fails at `A = null`. -/
theorem nested_runs_cex :
    ((ContextHandle.run (⟨0, TSVal.value 0⟩ : ContextHandle Nat) TSVal.nullish
        (nestedReadOp ⟨0, TSVal.value 0⟩ (TSVal.value 1)))
      ⟨1, fun i => if i = 0 then some (TSVal.value 0) else none⟩).1
      ≠ (Except.ok (TSVal.nullish, TSVal.value 1, TSVal.nullish)
          : Except Unit (TSVal Nat × TSVal Nat × TSVal Nat)) := by
  intro hcontra
  have hval : ((ContextHandle.run (⟨0, TSVal.value 0⟩ : ContextHandle Nat) TSVal.nullish
        (nestedReadOp ⟨0, TSVal.value 0⟩ (TSVal.value 1)))
      ⟨1, fun i => if i = 0 then some (TSVal.value 0) else none⟩).1
      = (Except.ok (TSVal.value 0, TSVal.value 1, TSVal.value 0)
          : Except Unit (TSVal Nat × TSVal Nat × TSVal Nat)) := rfl
  rw [hval] at hcontra
  exact absurd (Except.ok.inj hcontra) (by decide)

/-- C4 (amended): for every handle, every state and all non-nullish values
`A`, `B` (in particular all `A ≠ B`), nested runs observe strict nesting:
inside `run(A, ...)` a read yields `A`, inside the inner `run(B, ...)` a read
yields `B`, and after the inner run returns, a read in the outer extent
yields `A` again. -/
theorem nested_runs (h : ContextHandle α) (s : CtxState α) (a b : α) :
    ((h.run (ε := ε) (TSVal.value a) (nestedReadOp h (TSVal.value b))) s).1
      = Except.ok (TSVal.value a, TSVal.value b, TSVal.value a) := by
  rw [run_result]
  show (nestedReadOp h (TSVal.value b) (bindForExtent h.id (TSVal.value a) s)).1
      = _
  rw [nestedReadOp]
  simp only [run_result, useOp, use, use_bindForExtent_value, run_post_use]

/-- C5: reading a handle freshly created with `createContext(D)`, in the
state left by the creation and with no enclosing `run` for that handle,
returns exactly `D`: creation immediately seeds the carrier slot with the
default. -/
theorem create_read_default (init : TSVal α) (s : CtxState α) :
    ContextHandle.use (createContext init s).1 (createContext init s).2
      = init := by
  cases init <;>
    simp [createContext, ContextHandle.use, setSlot, nullishCoalesce]

/-- C6: the function returned by `runWithContext(handle, value)`, applied to
an operation, is exactly `handle.run(value, operation)` — the same result and
the same carrier-state effects on every input state; it holds no state of its
own. -/
theorem runWithContext_delegates (h : ContextHandle α) (v : TSVal α)
    (fn : CtxM α ε β) : runWithContext h v fn = h.run v fn := rfl

/-- C7: handles with distinct carrier slots never interfere, even with
identical default values: while an operation that does not itself write the
second handle's slot runs inside `run` on the first handle, a read through
the second handle — both inside the new extent and after `run` completes —
returns exactly what it returned before. -/
theorem handles_independent (h1 h2 : ContextHandle α) (v : TSVal α)
    (fn : CtxM α ε β) (s : CtxState α) (hne : h2.id ≠ h1.id)
    (hframe : ∀ t, ((fn t).2).store h2.id = t.store h2.id) :
    ContextHandle.use h2 (bindForExtent h1.id v s) = ContextHandle.use h2 s ∧
      ContextHandle.use h2 ((h1.run v fn) s).2 = ContextHandle.use h2 s := by
  have hb : (bindForExtent h1.id v s).store h2.id = s.store h2.id :=
    setSlot_store_other h1.id h2.id (some v) s hne
  constructor
  · simp [ContextHandle.use, hb]
  · have hpost : ((h1.run v fn) s).2.store h2.id = s.store h2.id := by
      show (setSlot h1.id (s.store h1.id) (fn (bindForExtent h1.id v s)).2).store h2.id
          = s.store h2.id
      rw [setSlot_store_other _ _ _ _ hne, hframe, hb]
    simp [ContextHandle.use, hpost]

/-- C7 (witness): two handles with identical defaults on slots 0 and 1; a
`run` on the first, around an operation reading the second, leaves the read
through the second handle unchanged inside and after the extent. -/
theorem handles_independent_witness :
    ContextHandle.use (⟨1, TSVal.value 5⟩ : ContextHandle Nat)
        (bindForExtent 0 (TSVal.value 9)
          ⟨2, fun i => if i ≤ 1 then some (TSVal.value 5) else none⟩)
      = ContextHandle.use (⟨1, TSVal.value 5⟩ : ContextHandle Nat)
          ⟨2, fun i => if i ≤ 1 then some (TSVal.value 5) else none⟩ ∧
      ContextHandle.use (⟨1, TSVal.value 5⟩ : ContextHandle Nat)
        ((ContextHandle.run (⟨0, TSVal.value 5⟩ : ContextHandle Nat)
            (TSVal.value 9) (useOp (ε := Unit) ⟨1, TSVal.value 5⟩))
          ⟨2, fun i => if i ≤ 1 then some (TSVal.value 5) else none⟩).2
      = ContextHandle.use (⟨1, TSVal.value 5⟩ : ContextHandle Nat)
          ⟨2, fun i => if i ≤ 1 then some (TSVal.value 5) else none⟩ :=
  handles_independent ⟨0, TSVal.value 5⟩ ⟨1, TSVal.value 5⟩ (TSVal.value 9)
    (useOp ⟨1, TSVal.value 5⟩) _ (by decide) (fun t => rfl)

/-- C8: the primitive's own operations are total: at the effectful call-site
signature, `use(handle)` always resolves — with the current reading — and
leaves the carrier state untouched, and `createContext(init)` always
resolves with the created handle, for every state and every initial value. -/
theorem primitive_total (h : ContextHandle α) (s : CtxState α)
    (init : TSVal α) :
    (useOp (ε := ε) h s).1 = Except.ok (use h s) ∧
      (useOp (ε := ε) h s).2 = s ∧
      (createContextOp (ε := ε) init s).1
        = Except.ok (createContext init s).1 :=
  ⟨rfl, rfl, rfl⟩

/-- C10: the nullish-coalescing read: binding a nullish value via `run`
makes the read inside that extent return the handle's initial value, while
binding any non-nullish value `V` makes the read return `V` itself. -/
theorem nullish_bound_reads_default (h : ContextHandle α) (s : CtxState α)
    (a : α) :
    ((h.run (ε := ε) TSVal.nullish (useOp h)) s).1
        = Except.ok h.initialValue ∧
      ((h.run (ε := ε) (TSVal.value a) (useOp h)) s).1
        = Except.ok (TSVal.value a) := by
  constructor
  · rw [run_result]; simp [useOp, use, use_bindForExtent_nullish]
  · rw [run_result]; simp [useOp, use, use_bindForExtent_value]

theorem taskInv_turn (h : ContextHandle α) (a : α) (t : Task α)
    (ht : TaskInv h a t) : TaskInv h a (Task.turn h t) := by
  obtain ⟨henv, hnr, hres⟩ := ht
  cases t with
  | mk env prog result =>
    cases result with
    | some r => exact ⟨henv, hnr, hres⟩
    | none =>
      cases prog with
      | nil =>
        refine ⟨henv, hnr, Or.inr ?_⟩
        show some (ContextHandle.use h ⟨0, env⟩) = some (TSVal.value a)
        have henv' : env h.id = some (TSVal.value a) := henv
        simp [ContextHandle.use, henv', nullishCoalesce]
      | cons st rest =>
        have hst : st = ChildStep.delay := hnr st (List.mem_cons_self st rest)
        subst hst
        exact ⟨henv, fun x hx => hnr x (List.mem_cons_of_mem _ hx),
          Or.inl rfl⟩

theorem schedTurn_inv (h : ContextHandle α) (a : α) (tasks : List (Task α))
    (i j : Nat) (hj : ∀ t, tasks[j]? = some t → TaskInv h a t) :
    ∀ t, (schedTurn h tasks i)[j]? = some t → TaskInv h a t := by
  intro t ht
  rw [schedTurn] at ht
  cases hi : tasks[i]? with
  | none => rw [hi] at ht; exact hj t ht
  | some ti =>
    rw [hi] at ht
    by_cases hij : i = j
    · subst hij
      rw [List.getElem?_set_self', hi] at ht
      simp only [Option.map_some, Function.const_apply] at ht
      cases ht
      exact taskInv_turn h a ti (hj ti hi)
    · rw [List.getElem?_set_ne hij] at ht
      exact hj t ht

theorem runSched_inv (h : ContextHandle α) (a : α) :
    ∀ (sched : List Nat) (tasks : List (Task α)) (j : Nat),
      (∀ t, tasks[j]? = some t → TaskInv h a t) →
      ∀ t, (runSched h tasks sched)[j]? = some t → TaskInv h a t := by
  intro sched
  induction sched with
  | nil => intro tasks j hj t ht; exact hj t ht
  | cons i rest ih =>
    intro tasks j hj t ht
    rw [runSched] at ht
    exact ih (schedTurn h tasks i) j (schedTurn_inv h a tasks i j hj) t ht

/-- C9: concurrent isolation under fan-out: for every parent extent, every
fan-out of concurrently launched `run` calls, and every schedule — any
relative completion order, any interleaving, any added delays — a child
spawned with bound value `a` whose own program never rebinds resolves with
exactly `a`, whatever rebinding its siblings perform mid-flight. -/
theorem concurrent_isolation (h : ContextHandle α) (s : CtxState α)
    (specs : List (TSVal α × List (ChildStep α))) (sched : List Nat)
    (i : Nat) (a : α) (prog : List (ChildStep α)) (r : TSVal α)
    (hspec : specs[i]? = some (TSVal.value a, prog))
    (hnr : noRebind prog)
    (hres : ((runSched h (fanOut h s specs) sched)[i]?).bind Task.result
      = some r) :
    r = TSVal.value a := by
  have hinit : ∀ t, (fanOut h s specs)[i]? = some t → TaskInv h a t := by
    intro t ht
    rw [fanOut, List.getElem?_map, hspec] at ht
    simp only [Option.map] at ht
    cases ht
    refine ⟨?_, hnr, Or.inl rfl⟩
    show (bindForExtent h.id (TSVal.value a) s).store h.id
        = some (TSVal.value a)
    exact setSlot_store_self h.id (some (TSVal.value a)) s
  obtain ⟨t, ht, hr⟩ : ∃ t, (runSched h (fanOut h s specs) sched)[i]?
      = some t ∧ t.result = some r := by
    cases hx : (runSched h (fanOut h s specs) sched)[i]? with
    | none => rw [hx] at hres; cases hres
    | some t => rw [hx] at hres; exact ⟨t, rfl, hres⟩
  obtain ⟨-, -, hcase⟩ := runSched_inv h a sched (fanOut h s specs) i hinit t ht
  cases hcase with
  | inl hnone => rw [hnone] at hr; cases hr
  | inr hval => rw [hval] at hr; exact (Option.some.inj hr).symm

/-- C9 (witness): three concrete children — bound to `10` (with a
suspension point), `20` (rebinding to `99` mid-flight) and `30` — under an
interleaved schedule: child 0 resolves with exactly its bound value `10`,
untouched by the interleaving and by the sibling's rebinding. -/
theorem concurrent_isolation_witness :
    ((runSched demoHandle (fanOut demoHandle demoState demoSpecs)
        demoSched)[0]?).bind Task.result = some (TSVal.value 10) ∧
      (TSVal.value 10 : TSVal Nat) = TSVal.value 10 :=
  ⟨rfl, concurrent_isolation demoHandle demoState demoSpecs demoSched 0 10
    [ChildStep.delay] (TSVal.value 10) rfl
    (fun st hst => by simpa using hst) rfl⟩

end AsyncContext
